import Mathlib

/-!
Shallow embedding of the real-time live-session client
(`src/services/liveClient.ts` of the MamaAI repository).

Numeric values (audio clock times, sample values, durations) are modelled
as rationals; 16-bit sample values as integers.  Byte buffers are lists of
naturals below 256; base64 text is a list of characters.  The platform
primitives `window.btoa` / `window.atob` are modelled by the standard
RFC 4648 base64 encoding they implement.  The asynchronous client
(methods `connect` / `disconnect` and the channel callbacks `onopen`,
`onmessage`, `onclose`, `onerror`) is modelled as a step function on an
explicit client state, driven by a list of events; callback emissions
(`onStatusChange`, `onError`) are recorded in logs inside the state.
-/

namespace MamaAI

/-! ### Base64 transport encoding (models `window.btoa` / `window.atob`)

`arrayBufferToBase64` (liveClient.ts:287-295) turns the bytes of a buffer
into a binary string (`String.fromCharCode`, identity on byte values) and
applies `btoa`; `base64ToArrayBuffer` (liveClient.ts:297-305) applies
`atob` and reads the code units back (`charCodeAt`, again the identity on
byte values).  So at the byte level the two functions are exactly base64
encoding and decoding, which is what we define here.  `atob` throws on
malformed input, modelled by an `Option` result. -/

def base64Alphabet : List Char :=
  "ABCDEFGHIJKLMNOPQRSTUVWXYZabcdefghijklmnopqrstuvwxyz0123456789+/".toList

def encodeChar (n : Nat) : Char := base64Alphabet.getD n '?'

def decodeChar (c : Char) : Option Nat := base64Alphabet.indexOf? c

/-- `arrayBufferToBase64` (liveClient.ts:287-295): base64-encode a byte list,
three input bytes per four output characters, padded with `=`. -/
def arrayBufferToBase64 : List Nat → List Char
  | [] => []
  | [a] => [encodeChar (a / 4), encodeChar (a % 4 * 16), '=', '=']
  | [a, b] =>
      [encodeChar (a / 4), encodeChar (a % 4 * 16 + b / 16), encodeChar (b % 16 * 4), '=']
  | a :: b :: c :: rest =>
      encodeChar (a / 4) :: encodeChar (a % 4 * 16 + b / 16) ::
        encodeChar (b % 16 * 4 + c / 64) :: encodeChar (c % 64) ::
          arrayBufferToBase64 rest

/-- Decode one full base64 block of four characters into three bytes. -/
def decode4 (c1 c2 c3 c4 : Char) : Option (List Nat) :=
  (decodeChar c1).bind fun s1 => (decodeChar c2).bind fun s2 =>
    (decodeChar c3).bind fun s3 => (decodeChar c4).bind fun s4 =>
      some [s1 * 4 + s2 / 16, s2 % 16 * 16 + s3 / 4, s3 % 4 * 64 + s4]

/-- Decode the final (possibly padded) block of a base64 string. -/
def decodeLast : List Char → Option (List Nat)
  | [] => pure []
  | [c1, c2, c3, c4] =>
      if c3 = '=' ∧ c4 = '=' then
        (decodeChar c1).bind fun s1 => (decodeChar c2).bind fun s2 =>
          some [s1 * 4 + s2 / 16]
      else if c4 = '=' then
        (decodeChar c1).bind fun s1 => (decodeChar c2).bind fun s2 =>
          (decodeChar c3).bind fun s3 =>
            some [s1 * 4 + s2 / 16, s2 % 16 * 16 + s3 / 4]
      else decode4 c1 c2 c3 c4
  | _ => none

/-- `base64ToArrayBuffer` (liveClient.ts:297-305): base64-decode to a byte
list; `none` models the exception `atob` throws on malformed input. -/
def base64ToArrayBuffer : List Char → Option (List Nat)
  | c1 :: c2 :: c3 :: c4 :: c5 :: rest =>
      (decode4 c1 c2 c3 c4).bind fun bs =>
        (base64ToArrayBuffer (c5 :: rest)).bind fun more =>
          some (bs ++ more)
  | l => decodeLast l

/-! ### Sample converter -/

/-- The clamp `Math.max(-1, Math.min(1, s))` (liveClient.ts:281). -/
def clampSample (x : ℚ) : ℚ := max (-1) (min 1 x)

/-- Truncation toward zero, the integral conversion JavaScript performs when
a number is stored into an `Int16Array` element (ECMAScript `ToInt16`,
before the modular wrap). -/
def jsTrunc (q : ℚ) : ℤ := if 0 ≤ q then ⌊q⌋ else ⌈q⌉

/-- The modular wrap of ECMAScript `ToInt16` into `[-32768, 32767]`. -/
def toInt16 (n : ℤ) : ℤ := (n + 32768) % 65536 - 32768

/-- One sample of `floatTo16BitPCM` (liveClient.ts:278-285): clamp to
`[-1, 1]`, scale by `0x8000` when negative and `0x7FFF` otherwise, then
store into an `Int16Array` element (truncation plus modular wrap). -/
def floatTo16BitPCMSample (x : ℚ) : ℤ :=
  toInt16 (jsTrunc (if clampSample x < 0 then clampSample x * 32768 else clampSample x * 32767))

/-- `floatTo16BitPCM` (liveClient.ts:278-285), mapped over a whole chunk. -/
def floatTo16BitPCM (l : List ℚ) : List ℤ := l.map floatTo16BitPCMSample

/-- The decode-side per-sample conversion `dataInt16[i] / 32768.0`
(liveClient.ts:312). -/
def pcm16ToFloatSample (n : ℤ) : ℚ := (n : ℚ) / 32768

/-- Encode one sample to PCM16 and decode it back (claim C5's round trip). -/
def roundTrip (x : ℚ) : ℚ := pcm16ToFloatSample (floatTo16BitPCMSample x)

/-- Reinterpret a byte list as little-endian signed 16-bit integers, as
`new Int16Array(buffer)` does; a trailing odd byte is never produced here
because `decodeAudioData` first checks evenness. -/
def toInt16Pairs : List Nat → List ℤ
  | lo :: hi :: rest =>
      (if lo + 256 * hi < 32768 then ((lo + 256 * hi : Nat) : ℤ)
       else ((lo + 256 * hi : Nat) : ℤ) - 65536) :: toInt16Pairs rest
  | _ => []

/-- `decodeAudioData` (liveClient.ts:307-315): view the buffer as 16-bit
samples (`new Int16Array` throws — modelled as `none` — when the byte
length is odd), convert each sample by dividing by 32768, and produce an
audio buffer whose duration is `frameCount / 24000` (the output sample
rate `AUDIO_OUTPUT_SAMPLE_RATE`).  Result: (channel samples, duration). -/
def decodeAudioData (data : List Nat) : Option (List ℚ × ℚ) :=
  if data.length % 2 = 0 then
    some ((toInt16Pairs data).map pcm16ToFloatSample, ((data.length / 2 : Nat) : ℚ) / 24000)
  else none

/-- The inbound decode pipeline of `handleServerMessage`
(liveClient.ts:237-240): `base64ToArrayBuffer` then `decodeAudioData`;
an exception anywhere in the `try` block is modelled as `none`. -/
def decodeBase64Audio (data : List Char) : Option (List ℚ × ℚ) :=
  (base64ToArrayBuffer data).bind decodeAudioData

/-! ### Inbound server messages

The handler reads `message.serverContent?.modelTurn?.parts?.[0]?.inlineData?.data`
(liveClient.ts:228) through optional chaining, and
`message.serverContent?.interrupted` (liveClient.ts:231).  Each optional
level is an `Option`; the `data` string itself may be absent. -/

structure InlineData where
  data : Option (List Char)
deriving DecidableEq

structure Part where
  inlineData : Option InlineData
deriving DecidableEq

structure ModelTurn where
  parts : List Part
deriving DecidableEq

structure ServerContent where
  modelTurn : Option ModelTurn
  interrupted : Bool
deriving DecidableEq

structure LiveServerMessage where
  serverContent : Option ServerContent
deriving DecidableEq

/-- The optional-chained audio payload lookup of liveClient.ts:228, with
JavaScript truthiness folded in: the guard `if (audioData && ...)` treats
the empty string like an absent payload, so an empty `data` yields `none`. -/
def audioDataOf (m : LiveServerMessage) : Option (List Char) :=
  match m.serverContent.bind fun sc =>
      sc.modelTurn.bind fun mt =>
        mt.parts.head?.bind fun p =>
          p.inlineData.bind fun i => i.data with
  | some (c :: cs) => some (c :: cs)
  | _ => none

/-- `message.serverContent?.interrupted` (liveClient.ts:231), `false` when
`serverContent` is absent (optional chaining yields `undefined`, falsy). -/
def messageInterrupted (m : LiveServerMessage) : Bool :=
  match m.serverContent with
  | none => false
  | some sc => sc.interrupted

/-! ### The client state machine

`LiveClientState` collects the mutable fields of the `LiveClient` class;
each resource field is `true` exactly when the corresponding handle is
non-null.  `statusLog` and `errorLog` record every `onStatusChange` and
`onError` emission, oldest first; `statusLog` starts with the consumer's
initial status `"DISCONNECTED"` (App.tsx:15).  `scheduled` records, in
call order, the `(startTime, duration)` of every `source.start(startTime)`
issued by `handleServerMessage` (liveClient.ts:249-250). -/

structure LiveClientState where
  statusLog : List String
  errorLog : List String
  sessionActive : Bool
  inputAudioContext : Bool
  outputAudioContext : Bool
  outputNode : Bool
  stream : Bool
  videoInterval : Bool
  processor : Bool
  nextStartTime : ℚ
  scheduled : List (ℚ × ℚ)
deriving DecidableEq

/-- State right after `new LiveClient()` with the consumer's initial
status, before any `connect` call. -/
def initState : LiveClientState :=
  { statusLog := ["DISCONNECTED"]
    errorLog := []
    sessionActive := false
    inputAudioContext := false
    outputAudioContext := false
    outputNode := false
    stream := false
    videoInterval := false
    processor := false
    nextStartTime := 0
    scheduled := [] }

/-- Outcome of the awaited device/channel acquisition inside `connect`:
either everything succeeds, or `getUserMedia` rejects with a named error
(`NotAllowedError`, `NotFoundError`) or some other failure reaches the
`catch` block (liveClient.ts:102-115). -/
inductive ConnectOutcome
  | granted | notAllowed | notFound | otherFailure
deriving DecidableEq

/-- Events driving the client: its public methods and the channel
callbacks registered in `connect` (liveClient.ts:78-97).  A
`channelMessage` carries the output-context clock value
(`outputAudioContext.currentTime`) observed while handling it. -/
inductive Event
  | connectCall (outcome : ConnectOutcome)
  | channelOpen
  | channelMessage (now : ℚ) (msg : LiveServerMessage)
  | channelClose
  | channelError
  | disconnectCall
deriving DecidableEq

/-- `cleanupResources` (liveClient.ts:266-276): stop the video timer and
the media tracks, close both audio contexts, null those four fields.
Note it does not null `outputNode` or `processor`. -/
def cleanupResources (s : LiveClientState) : LiveClientState :=
  { s with videoInterval := false
           stream := false
           inputAudioContext := false
           outputAudioContext := false }

def emitStatus (s : LiveClientState) (st : String) : LiveClientState :=
  { s with statusLog := s.statusLog ++ [st] }

def emitError (s : LiveClientState) (m : String) : LiveClientState :=
  { s with errorLog := s.errorLog ++ [m] }

/-- The classified error message of the `catch` block
(liveClient.ts:105-110). -/
def connectErrorMessage : ConnectOutcome → String
  | .notAllowed => "Camera/Microphone access denied. Please allow permissions."
  | .notFound => "No camera or microphone found."
  | _ => "Failed to connect."

/-- One event step of the client.

* `connectCall` (liveClient.ts:31-116): emit `"CONNECTING"`, create both
  audio contexts and the output gain node, then `initStream`
  (`getUserMedia`).  On success the stream is held and the session promise
  stored; on failure the `catch` block emits the classified error message,
  emits `"ERROR"` and runs `cleanupResources` (the contexts were already
  created when `getUserMedia` rejects).
* `channelOpen` (liveClient.ts:79-82): emit `"CONNECTED"`, then
  `startAudioInput`, which wires the processor only when
  `inputAudioContext` and `stream` are both present (liveClient.ts:196).
* `channelMessage`: `handleServerMessage` (liveClient.ts:227-255).
* `channelClose` (liveClient.ts:86-90): emit `"DISCONNECTED"`, cleanup.
* `channelError` (liveClient.ts:91-96): emit the connection-failed error,
  emit `"ERROR"`, cleanup.
* `disconnectCall` (liveClient.ts:257-264): drop the session (requesting
  a close of the channel), cleanup, emit `"DISCONNECTED"`. -/
def step (s : LiveClientState) : Event → LiveClientState
  | .connectCall o =>
      let s1 := emitStatus s "CONNECTING"
      let s2 := { s1 with inputAudioContext := true
                          outputAudioContext := true
                          outputNode := true }
      match o with
      | .granted => { s2 with stream := true, sessionActive := true }
      | o => cleanupResources (emitStatus (emitError s2 (connectErrorMessage o)) "ERROR")
  | .channelOpen =>
      let s1 := emitStatus s "CONNECTED"
      if s1.inputAudioContext && s1.stream then { s1 with processor := true } else s1
  | .channelMessage now msg =>
      match audioDataOf msg with
      | none => s
      | some data =>
          if s.outputAudioContext && s.outputNode then
            if messageInterrupted msg then { s with nextStartTime := now }
            else
              match decodeBase64Audio data with
              | none => s
              | some (_, dur) =>
                  let startTime := max now s.nextStartTime
                  { s with scheduled := s.scheduled ++ [(startTime, dur)]
                           nextStartTime := startTime + dur }
          else s
  | .channelClose => cleanupResources (emitStatus s "DISCONNECTED")
  | .channelError =>
      cleanupResources (emitStatus (emitError s "Connection to AI failed.") "ERROR")
  | .disconnectCall =>
      emitStatus (cleanupResources { s with sessionActive := false }) "DISCONNECTED"

/-- Run the client over a list of events, oldest first. -/
def run (s : LiveClientState) (evs : List Event) : LiveClientState :=
  evs.foldl step s

/-- All device-side resources are released: no media stream, no audio
contexts, no video timer. -/
def resourcesReleased (s : LiveClientState) : Prop :=
  s.stream = false ∧ s.inputAudioContext = false ∧
    s.outputAudioContext = false ∧ s.videoInterval = false

/-! ### Sample-converter lemmas -/

theorem clampSample_bounds (x : ℚ) : -1 ≤ clampSample x ∧ clampSample x ≤ 1 :=
  ⟨le_max_left _ _, max_le (by norm_num) (min_le_left _ _)⟩

theorem clampSample_eq_self (x : ℚ) (h1 : -1 ≤ x) (h2 : x ≤ 1) : clampSample x = x := by
  rw [clampSample, min_eq_right h2, max_eq_right h1]

theorem jsTrunc_scaled_bounds (s : ℚ) (h1 : -1 ≤ s) (h2 : s ≤ 1) :
    -32768 ≤ jsTrunc (if s < 0 then s * 32768 else s * 32767) ∧
      jsTrunc (if s < 0 then s * 32768 else s * 32767) ≤ 32767 := by
  by_cases hs : s < 0
  · rw [if_pos hs, jsTrunc, if_neg (by nlinarith)]
    constructor
    · have hv : ((-32768 : ℤ) : ℚ) ≤ s * 32768 := by push_cast; nlinarith
      have h := Int.ceil_le_ceil hv
      rwa [Int.ceil_intCast] at h
    · have hv : s * 32768 ≤ ((0 : ℤ) : ℚ) := by push_cast; nlinarith
      calc ⌈s * 32768⌉ ≤ 0 := Int.ceil_le.mpr hv
        _ ≤ 32767 := by norm_num
  · push_neg at hs
    rw [if_neg (not_lt.mpr hs), jsTrunc, if_pos (by nlinarith)]
    constructor
    · calc (-32768 : ℤ) ≤ 0 := by norm_num
        _ ≤ ⌊s * 32767⌋ := Int.le_floor.mpr (by push_cast; nlinarith)
    · have hv : s * 32767 ≤ ((32767 : ℤ) : ℚ) := by push_cast; nlinarith
      have h := Int.floor_le_floor hv
      rwa [Int.floor_intCast] at h

theorem toInt16_eq_self (n : ℤ) (h1 : -32768 ≤ n) (h2 : n ≤ 32767) : toInt16 n = n := by
  rw [toInt16]; omega

/-- The `Int16Array` store never wraps: the produced sample is exactly the
truncation toward zero of the scaled clamped value, and lies in the
representable int16 range. -/
theorem floatTo16BitPCMSample_spec (x : ℚ) :
    floatTo16BitPCMSample x =
        jsTrunc (if clampSample x < 0 then clampSample x * 32768 else clampSample x * 32767) ∧
      -32768 ≤ floatTo16BitPCMSample x ∧ floatTo16BitPCMSample x ≤ 32767 := by
  obtain ⟨h1, h2⟩ := clampSample_bounds x
  obtain ⟨hb1, hb2⟩ := jsTrunc_scaled_bounds (clampSample x) h1 h2
  have he : floatTo16BitPCMSample x =
      jsTrunc (if clampSample x < 0 then clampSample x * 32768 else clampSample x * 32767) := by
    rw [floatTo16BitPCMSample, toInt16_eq_self _ hb1 hb2]
  exact ⟨he, by rw [he]; exact hb1, by rw [he]; exact hb2⟩

/-- Encode/decode round-trip error bound.  The encoder scales non-negative
samples by 32767 while the decoder always divides by 32768, so near `x = 1`
the error can exceed one quantization step; it always stays strictly below
two steps. -/
theorem roundTrip_close (x : ℚ) (h1 : -1 ≤ x) (h2 : x ≤ 1) :
    |roundTrip x - x| < 2 / 32768 := by
  have hc : clampSample x = x := clampSample_eq_self x h1 h2
  have hs := (floatTo16BitPCMSample_spec x).1
  rw [hc] at hs
  rw [roundTrip, pcm16ToFloatSample, hs]
  by_cases hx : x < 0
  · rw [if_pos hx, jsTrunc, if_neg (by nlinarith)]
    set d : ℚ := ((⌈x * 32768⌉ : ℤ) : ℚ) with hd
    have hle : x * 32768 ≤ d := Int.le_ceil _
    have hlt : d < x * 32768 + 1 := Int.ceil_lt_add_one _
    have hnn : 0 ≤ d / 32768 - x := by
      rw [sub_nonneg, le_div_iff₀ (by norm_num : (0:ℚ) < 32768)]
      linarith
    rw [abs_of_nonneg hnn]
    rw [show d / 32768 - x = (d - x * 32768) / 32768 by ring]
    rw [div_lt_div_iff₀ (by norm_num) (by norm_num)]
    linarith
  · push_neg at hx
    rw [if_neg (not_lt.mpr hx), jsTrunc, if_pos (by nlinarith)]
    set d : ℚ := ((⌊x * 32767⌋ : ℤ) : ℚ) with hd
    have hle : d ≤ x * 32767 := Int.floor_le _
    have hlt : x * 32767 < d + 1 := Int.lt_floor_add_one _
    have hnp : d / 32768 - x ≤ 0 := by
      rw [sub_nonpos, div_le_iff₀ (by norm_num : (0:ℚ) < 32768)]
      nlinarith
    rw [abs_of_nonpos hnp]
    rw [show -(d / 32768 - x) = (x * 32768 - d) / 32768 by ring]
    rw [div_lt_div_iff₀ (by norm_num) (by norm_num)]
    nlinarith

/-! ### Base64 round-trip lemmas -/

theorem decodeChar_encodeChar_fin : ∀ n : Fin 64, decodeChar (encodeChar n.val) = some n.val := by decide

theorem encodeChar_ne_pad_fin : ∀ n : Fin 64, encodeChar n.val ≠ '=' := by decide

theorem decodeChar_encodeChar (n : Nat) (h : n < 64) : decodeChar (encodeChar n) = some n :=
  decodeChar_encodeChar_fin ⟨n, h⟩

theorem encodeChar_ne_pad (n : Nat) (h : n < 64) : encodeChar n ≠ '=' :=
  encodeChar_ne_pad_fin ⟨n, h⟩

theorem arrayBufferToBase64_ne_nil : ∀ (l : List Nat), l ≠ [] → arrayBufferToBase64 l ≠ []
  | [], h => absurd rfl h
  | [a], _ => by rw [arrayBufferToBase64]; simp
  | [a, b], _ => by rw [arrayBufferToBase64]; simp
  | a :: b :: c :: rest, _ => by rw [arrayBufferToBase64]; simp

theorem decode4_encode (a b c : Nat) (ha : a < 256) (hb : b < 256) (hc : c < 256) :
    decode4 (encodeChar (a / 4)) (encodeChar (a % 4 * 16 + b / 16))
      (encodeChar (b % 16 * 4 + c / 64)) (encodeChar (c % 64)) = some [a, b, c] := by
  rw [decode4, decodeChar_encodeChar _ (by omega), decodeChar_encodeChar _ (by omega),
    decodeChar_encodeChar _ (by omega), decodeChar_encodeChar _ (by omega)]
  simp only [Option.some_bind, Option.some.injEq, List.cons.injEq, and_true]
  refine ⟨by omega, by omega, by omega⟩

theorem base64_roundtrip : ∀ (l : List Nat), (∀ x ∈ l, x < 256) →
    base64ToArrayBuffer (arrayBufferToBase64 l) = some l
  | [], _ => by simp [arrayBufferToBase64, base64ToArrayBuffer, decodeLast]
  | [a], h => by
      have ha : a < 256 := h a (by simp)
      rw [arrayBufferToBase64]
      rw [show base64ToArrayBuffer [encodeChar (a / 4), encodeChar (a % 4 * 16), '=', '='] =
        decodeLast [encodeChar (a / 4), encodeChar (a % 4 * 16), '=', '='] from rfl]
      rw [decodeLast]
      rw [if_pos ⟨rfl, rfl⟩, decodeChar_encodeChar _ (by omega), decodeChar_encodeChar _ (by omega)]
      simp only [Option.some_bind, Option.some.injEq, List.cons.injEq, and_true]
      omega
  | [a, b], h => by
      have ha : a < 256 := h a (by simp)
      have hb : b < 256 := h b (by simp)
      rw [arrayBufferToBase64]
      rw [show base64ToArrayBuffer [encodeChar (a / 4), encodeChar (a % 4 * 16 + b / 16),
          encodeChar (b % 16 * 4), '='] =
        decodeLast [encodeChar (a / 4), encodeChar (a % 4 * 16 + b / 16),
          encodeChar (b % 16 * 4), '='] from rfl]
      rw [decodeLast]
      rw [if_neg (by rintro ⟨h3, -⟩; exact encodeChar_ne_pad _ (by omega) h3), if_pos rfl]
      rw [decodeChar_encodeChar _ (by omega), decodeChar_encodeChar _ (by omega),
        decodeChar_encodeChar _ (by omega)]
      simp only [Option.some_bind, Option.some.injEq, List.cons.injEq, and_true]
      refine ⟨by omega, by omega⟩
  | a :: b :: c :: rest, h => by
      have ha : a < 256 := h a (by simp)
      have hb : b < 256 := h b (by simp)
      have hc : c < 256 := h c (by simp)
      rw [arrayBufferToBase64]
      rcases rest with - | ⟨r, rs⟩
      · rw [show arrayBufferToBase64 ([] : List Nat) = [] from rfl]
        rw [show base64ToArrayBuffer [encodeChar (a / 4), encodeChar (a % 4 * 16 + b / 16),
            encodeChar (b % 16 * 4 + c / 64), encodeChar (c % 64)] =
          decodeLast [encodeChar (a / 4), encodeChar (a % 4 * 16 + b / 16),
            encodeChar (b % 16 * 4 + c / 64), encodeChar (c % 64)] from rfl]
        rw [decodeLast]
        rw [if_neg (by rintro ⟨h3, -⟩; exact encodeChar_ne_pad _ (by omega) h3),
          if_neg (encodeChar_ne_pad _ (by omega)), decode4_encode a b c ha hb hc]
      · obtain ⟨y, ys, hy⟩ : ∃ y ys, arrayBufferToBase64 (r :: rs) = y :: ys := by
          rcases he : arrayBufferToBase64 (r :: rs) with - | ⟨y, ys⟩
          · exact absurd he (arrayBufferToBase64_ne_nil _ (by simp))
          · exact ⟨y, ys, rfl⟩
        rw [hy, base64ToArrayBuffer, decode4_encode a b c ha hb hc, ← hy,
          base64_roundtrip (r :: rs) (fun x hx => h x (by simp [hx]))]
        rfl

/-! ### State-machine lemmas -/

theorem step_msg_no_audio (s : LiveClientState) (t : ℚ) (m : LiveServerMessage)
    (h : audioDataOf m = none) : step s (.channelMessage t m) = s := by
  simp [step, h]

theorem step_msg_guard_off (s : LiveClientState) (t : ℚ) (m : LiveServerMessage) (d : List Char)
    (ha : audioDataOf m = some d) (hg : ¬ (s.outputAudioContext && s.outputNode) = true) :
    step s (.channelMessage t m) = s := by
  simp [step, ha, hg]

theorem step_msg_interrupt (s : LiveClientState) (t : ℚ) (m : LiveServerMessage) (d : List Char)
    (ha : audioDataOf m = some d) (ho : s.outputAudioContext = true) (hn : s.outputNode = true)
    (hi : messageInterrupted m = true) :
    step s (.channelMessage t m) = { s with nextStartTime := t } := by
  simp [step, ha, ho, hn, hi]

theorem step_msg_decode_fail (s : LiveClientState) (t : ℚ) (m : LiveServerMessage) (d : List Char)
    (ha : audioDataOf m = some d) (hi : messageInterrupted m = false)
    (hdec : decodeBase64Audio d = none) :
    step s (.channelMessage t m) = s := by
  by_cases hg : (s.outputAudioContext && s.outputNode) = true
  · simp [step, ha, hg, hi, hdec]
  · simp [step, ha, hg]

theorem step_msg_schedule (s : LiveClientState) (t : ℚ) (m : LiveServerMessage) (d : List Char)
    (samples : List ℚ) (dur : ℚ)
    (ha : audioDataOf m = some d) (ho : s.outputAudioContext = true) (hn : s.outputNode = true)
    (hi : messageInterrupted m = false)
    (hdec : decodeBase64Audio d = some (samples, dur)) :
    step s (.channelMessage t m) =
      { s with scheduled := s.scheduled ++ [(max t s.nextStartTime, dur)]
               nextStartTime := max t s.nextStartTime + dur } := by
  simp [step, ha, ho, hn, hi, hdec]

theorem decodeBase64Audio_dur_nonneg (d : List Char) (samples : List ℚ) (dur : ℚ)
    (h : decodeBase64Audio d = some (samples, dur)) : 0 ≤ dur := by
  rw [decodeBase64Audio] at h
  rcases hb : base64ToArrayBuffer d with - | bs
  · rw [hb] at h; simp at h
  · rw [hb, Option.some_bind, decodeAudioData] at h
    by_cases he : bs.length % 2 = 0
    · rw [if_pos he] at h
      simp only [Option.some.injEq, Prod.mk.injEq] at h
      rw [← h.2]
      positivity
    · rw [if_neg he] at h; simp at h

/-- Consecutive scheduled segments never overlap. -/
def segStartsOrdered (l : List (ℚ × ℚ)) : Prop :=
  List.Chain' (fun p q => p.1 + p.2 ≤ q.1) l

/-- Consecutive scheduled segments are exactly back to back. -/
def segStartsExact (l : List (ℚ × ℚ)) : Prop :=
  List.Chain' (fun p q => q.1 = p.1 + p.2) l

def schedInv (s : LiveClientState) : Prop :=
  segStartsOrdered s.scheduled ∧
    ∀ p ∈ s.scheduled.getLast?, p.1 + p.2 ≤ s.nextStartTime

def schedInvEq (s : LiveClientState) : Prop :=
  segStartsExact s.scheduled ∧
    ∀ p ∈ s.scheduled.getLast?, p.1 + p.2 = s.nextStartTime

theorem schedInv_step_msg (s : LiveClientState) (t : ℚ) (m : LiveServerMessage)
    (hi : messageInterrupted m = false) (h : schedInv s) :
    schedInv (step s (.channelMessage t m)) := by
  rcases ha : audioDataOf m with - | d
  · rw [step_msg_no_audio s t m ha]; exact h
  · by_cases hg : (s.outputAudioContext && s.outputNode) = true
    · obtain ⟨ho, hn⟩ : s.outputAudioContext = true ∧ s.outputNode = true := by
        simpa using hg
      rcases hdec : decodeBase64Audio d with - | ⟨samples, dur⟩
      · rw [step_msg_decode_fail s t m d ha hi hdec]; exact h
      · rw [step_msg_schedule s t m d samples dur ha ho hn hi hdec]
        constructor
        · rw [segStartsOrdered, List.chain'_append]
          refine ⟨h.1, List.chain'_singleton _, ?_⟩
          intro x hx y hy
          simp only [List.head?_cons, Option.mem_def, Option.some.injEq] at hy
          subst hy
          exact le_trans (h.2 x hx) (le_max_right t s.nextStartTime)
        · intro p hp
          have hp2 : (s.scheduled ++ [(max t s.nextStartTime, dur)]).getLast? = some p := hp
          rw [List.getLast?_concat] at hp2
          simp only [Option.some.injEq] at hp2
          show p.1 + p.2 ≤ max t s.nextStartTime + dur
          rw [← hp2]
    · rw [step_msg_guard_off s t m d ha hg]; exact h

theorem schedInvEq_step_msg (s : LiveClientState) (t : ℚ) (m : LiveServerMessage)
    (hi : messageInterrupted m = false) (hclock : t ≤ s.nextStartTime) (h : schedInvEq s) :
    schedInvEq (step s (.channelMessage t m)) := by
  rcases ha : audioDataOf m with - | d
  · rw [step_msg_no_audio s t m ha]; exact h
  · by_cases hg : (s.outputAudioContext && s.outputNode) = true
    · obtain ⟨ho, hn⟩ : s.outputAudioContext = true ∧ s.outputNode = true := by
        simpa using hg
      rcases hdec : decodeBase64Audio d with - | ⟨samples, dur⟩
      · rw [step_msg_decode_fail s t m d ha hi hdec]; exact h
      · rw [step_msg_schedule s t m d samples dur ha ho hn hi hdec]
        have hmax : max t s.nextStartTime = s.nextStartTime := max_eq_right hclock
        constructor
        · rw [segStartsExact, List.chain'_append]
          refine ⟨h.1, List.chain'_singleton _, ?_⟩
          intro x hx y hy
          simp only [List.head?_cons, Option.mem_def, Option.some.injEq] at hy
          subst hy
          show max t s.nextStartTime = x.1 + x.2
          rw [hmax, h.2 x hx]
        · intro p hp
          have hp2 : (s.scheduled ++ [(max t s.nextStartTime, dur)]).getLast? = some p := hp
          rw [List.getLast?_concat] at hp2
          simp only [Option.some.injEq] at hp2
          show p.1 + p.2 = max t s.nextStartTime + dur
          rw [← hp2]
    · rw [step_msg_guard_off s t m d ha hg]; exact h

/-- The `onmessage` events corresponding to a list of (clock, message)
arrivals, oldest first. -/
def msgEvents (pairs : List (ℚ × LiveServerMessage)) : List Event :=
  pairs.map fun p => Event.channelMessage p.1 p.2

/-- The device clock observed at each arrival never exceeds the running
scheduled total `nextStartTime` as it stands when that arrival is
processed. -/
def clockBoundedPairs (s : LiveClientState) : List (ℚ × LiveServerMessage) → Prop
  | [] => True
  | p :: rest =>
      p.1 ≤ s.nextStartTime ∧
        clockBoundedPairs (step s (Event.channelMessage p.1 p.2)) rest

theorem schedInv_run (pairs : List (ℚ × LiveServerMessage)) :
    ∀ (s : LiveClientState), (∀ p ∈ pairs, messageInterrupted p.2 = false) →
      schedInv s → schedInv (run s (msgEvents pairs)) := by
  induction pairs with
  | nil => intro s _ h; exact h
  | cons p ps ih =>
      intro s hi h
      rw [msgEvents, List.map_cons, run, List.foldl_cons]
      exact ih (step s (Event.channelMessage p.1 p.2))
        (fun q hq => hi q (List.mem_cons_of_mem p hq))
        (schedInv_step_msg s p.1 p.2 (hi p (List.mem_cons_self p ps)) h)

theorem schedInvEq_run (pairs : List (ℚ × LiveServerMessage)) :
    ∀ (s : LiveClientState), (∀ p ∈ pairs, messageInterrupted p.2 = false) →
      clockBoundedPairs s pairs → schedInvEq s → schedInvEq (run s (msgEvents pairs)) := by
  induction pairs with
  | nil => intro s _ _ h; exact h
  | cons p ps ih =>
      intro s hi hcb h
      rw [msgEvents, List.map_cons, run, List.foldl_cons]
      exact ih (step s (Event.channelMessage p.1 p.2))
        (fun q hq => hi q (List.mem_cons_of_mem p hq)) hcb.2
        (schedInvEq_step_msg s p.1 p.2 (hi p (List.mem_cons_self p ps)) hcb.1 h)

/-! ### Concrete states and messages used by the witnesses -/

/-- A representative connected-session state: both audio contexts and the
output gain node are live, a stream is held, the audio tap is wired, and
some playback is already scheduled to end at clock value 5. -/
def connectedState : LiveClientState :=
  { statusLog := ["DISCONNECTED", "CONNECTING", "CONNECTED"]
    errorLog := []
    sessionActive := true
    inputAudioContext := true
    outputAudioContext := true
    outputNode := true
    stream := true
    videoInterval := false
    processor := true
    nextStartTime := 5
    scheduled := [] }

/-- Base64 text decoding to the two zero bytes, hence one 16-bit frame. -/
def audioBase64 : List Char := ['A', 'A', 'A', '=']

/-- Base64 text decoding to a single byte: `new Int16Array` then throws. -/
def oddBase64 : List Char := ['A', 'A', '=', '=']

def mkAudioMessage (data : List Char) (intr : Bool) : LiveServerMessage :=
  ⟨some ⟨some ⟨[⟨some ⟨some data⟩⟩]⟩, intr⟩⟩

def msgInterruptAudio : LiveServerMessage := mkAudioMessage audioBase64 true

def msgPlainAudio : LiveServerMessage := mkAudioMessage audioBase64 false

def msgBadAudio : LiveServerMessage := mkAudioMessage oddBase64 false

/-- An interruption signal with no model-turn audio at the nested path. -/
def msgInterruptOnly : LiveServerMessage := ⟨some ⟨none, true⟩⟩

theorem audioBase64_decodes : decodeBase64Audio audioBase64 = some ([0], 1 / 24000) := by
  have h : base64ToArrayBuffer audioBase64 = some [0, 0] := by decide
  rw [decodeBase64Audio, h, Option.some_bind]
  norm_num [decodeAudioData, toInt16Pairs, pcm16ToFloatSample]

theorem oddBase64_fails : decodeBase64Audio oddBase64 = none := by
  have h : base64ToArrayBuffer oddBase64 = some [0] := by decide
  rw [decodeBase64Audio, h, Option.some_bind]
  norm_num [decodeAudioData]


/-! ### Claim theorems -/

/-- C1: processing an inbound message that carries the interruption flag
(together with an audio payload, which the guard at liveClient.ts:230
requires), followed by an inbound audio payload, resets `nextStartTime` to
the clock at the interruption, schedules nothing for the interruption
message, and leaves `nextStartTime` after the payload equal to the clock
at the audio's arrival plus the decoded duration — not the
pre-interruption scheduled time plus the duration. -/
theorem claim_C1 (s : LiveClientState) (t1 t2 : ℚ) (m1 m2 : LiveServerMessage)
    (d1 d2 : List Char) (samples : List ℚ) (dur : ℚ)
    (ho : s.outputAudioContext = true) (hn : s.outputNode = true)
    (ha1 : audioDataOf m1 = some d1) (hi1 : messageInterrupted m1 = true)
    (ha2 : audioDataOf m2 = some d2) (hi2 : messageInterrupted m2 = false)
    (hdec : decodeBase64Audio d2 = some (samples, dur))
    (hclock : t1 ≤ t2) :
    (step s (.channelMessage t1 m1)).nextStartTime = t1 ∧
      (step s (.channelMessage t1 m1)).scheduled = s.scheduled ∧
      (step (step s (.channelMessage t1 m1)) (.channelMessage t2 m2)).nextStartTime = t2 + dur ∧
      (s.nextStartTime ≠ t2 →
        (step (step s (.channelMessage t1 m1)) (.channelMessage t2 m2)).nextStartTime ≠
          s.nextStartTime + dur) := by
  have h1 := step_msg_interrupt s t1 m1 d1 ha1 ho hn hi1
  rw [h1]
  have h2 := step_msg_schedule { s with nextStartTime := t1 } t2 m2 d2 samples dur ha2 ho hn
    hi2 hdec
  rw [h2]
  have hmax : max t2 ({ s with nextStartTime := t1 } : LiveClientState).nextStartTime = t2 :=
    max_eq_left hclock
  refine ⟨rfl, rfl, ?_, ?_⟩
  · show max t2 t1 + dur = t2 + dur
    rw [max_eq_left hclock]
  · intro hne
    show max t2 t1 + dur ≠ s.nextStartTime + dur
    rw [max_eq_left hclock]
    intro hcontra
    exact hne (by linarith [add_right_cancel hcontra])

/-- Witness for C1 at a concrete connected state and concrete messages. -/
theorem claim_C1_witness :
    (step connectedState (.channelMessage 6 msgInterruptAudio)).nextStartTime = 6 ∧
      (step connectedState (.channelMessage 6 msgInterruptAudio)).scheduled =
        connectedState.scheduled ∧
      (step (step connectedState (.channelMessage 6 msgInterruptAudio))
          (.channelMessage 7 msgPlainAudio)).nextStartTime = 7 + 1 / 24000 ∧
      (connectedState.nextStartTime ≠ 7 →
        (step (step connectedState (.channelMessage 6 msgInterruptAudio))
            (.channelMessage 7 msgPlainAudio)).nextStartTime ≠
          connectedState.nextStartTime + 1 / 24000) :=
  claim_C1 connectedState 6 7 msgInterruptAudio msgPlainAudio audioBase64 audioBase64
    [0] (1 / 24000) rfl rfl rfl rfl rfl rfl audioBase64_decodes (by decide)

/-- C2: every scheduled segment starts at `max(deviceClockNow,
nextStartTime)` and pushes `nextStartTime` to start plus duration; over
any interruption-free sequence of inbound messages, consecutive scheduled
segments satisfy `start(n+1) ≥ start(n) + d(n)`, with equality whenever
the device clock never exceeds the running scheduled total. -/
theorem claim_C2 (s : LiveClientState) (pairs : List (ℚ × LiveServerMessage))
    (hempty : s.scheduled = [])
    (hplain : ∀ p ∈ pairs, messageInterrupted p.2 = false) :
    (∀ (s' : LiveClientState) (t : ℚ) (m : LiveServerMessage) (d : List Char)
        (samples : List ℚ) (dur : ℚ),
        audioDataOf m = some d → messageInterrupted m = false →
        s'.outputAudioContext = true → s'.outputNode = true →
        decodeBase64Audio d = some (samples, dur) →
        (step s' (.channelMessage t m)).scheduled =
            s'.scheduled ++ [(max t s'.nextStartTime, dur)] ∧
          (step s' (.channelMessage t m)).nextStartTime = max t s'.nextStartTime + dur) ∧
      segStartsOrdered (run s (msgEvents pairs)).scheduled ∧
      (clockBoundedPairs s pairs → segStartsExact (run s (msgEvents pairs)).scheduled) := by
  refine ⟨?_, ?_, ?_⟩
  · intro s' t m d samples dur ha hi ho hn hdec
    rw [step_msg_schedule s' t m d samples dur ha ho hn hi hdec]
    exact ⟨rfl, rfl⟩
  · have h0 : schedInv s := by
      refine ⟨?_, ?_⟩
      · rw [segStartsOrdered, hempty]; exact List.chain'_nil
      · rw [hempty]; intro p hp; simp at hp
    exact (schedInv_run pairs s hplain h0).1
  · intro hcb
    have h0 : schedInvEq s := by
      refine ⟨?_, ?_⟩
      · rw [segStartsExact, hempty]; exact List.chain'_nil
      · rw [hempty]; intro p hp; simp at hp
    exact (schedInvEq_run pairs s hplain hcb h0).1

/-- The arrival sequence used by C2's witness. -/
def samplePairs : List (ℚ × LiveServerMessage) := [(5, msgPlainAudio), (5, msgPlainAudio)]

/-- Witness for C2 on a two-message interruption-free arrival sequence. -/
theorem claim_C2_witness :
    connectedState.scheduled = [] ∧
      (∀ p ∈ samplePairs, messageInterrupted p.2 = false) ∧
      segStartsOrdered (run connectedState (msgEvents samplePairs)).scheduled :=
  ⟨rfl, by simp [samplePairs, msgPlainAudio, mkAudioMessage, messageInterrupted],
    (claim_C2 connectedState samplePairs rfl
      (by simp [samplePairs, msgPlainAudio, mkAudioMessage, messageInterrupted])).2.1⟩

/-- C8: when a single inbound audio payload fails to decode, the entire
client state is unchanged — no status or error callback fires, no resource
is released — and any subsequent message is processed exactly as it would
have been without the failing payload. -/
theorem claim_C8 (s : LiveClientState) (t : ℚ) (m : LiveServerMessage) (d : List Char)
    (ha : audioDataOf m = some d) (hi : messageInterrupted m = false)
    (hdec : decodeBase64Audio d = none) :
    step s (.channelMessage t m) = s ∧
      ∀ e, step (step s (.channelMessage t m)) e = step s e := by
  have h := step_msg_decode_fail s t m d ha hi hdec
  exact ⟨h, fun e => by rw [h]⟩

/-- Witness for C8 with a payload whose bytes have odd length. -/
theorem claim_C8_witness :
    audioDataOf msgBadAudio = some oddBase64 ∧
      messageInterrupted msgBadAudio = false ∧
      decodeBase64Audio oddBase64 = none ∧
      step connectedState (.channelMessage 9 msgBadAudio) = connectedState :=
  ⟨rfl, rfl, oddBase64_fails,
    (claim_C8 connectedState 9 msgBadAudio oddBase64 rfl rfl oddBase64_fails).1⟩

/-- C9: under every processed inbound message, `nextStartTime` is
non-decreasing, except that a message carrying the interruption flag may
reset it to the device clock observed at that message. -/
theorem claim_C9 (s : LiveClientState) (t : ℚ) (m : LiveServerMessage) :
    s.nextStartTime ≤ (step s (.channelMessage t m)).nextStartTime ∨
      (messageInterrupted m = true ∧ (step s (.channelMessage t m)).nextStartTime = t) := by
  rcases ha : audioDataOf m with - | d
  · left; rw [step_msg_no_audio s t m ha]
  · by_cases hg : (s.outputAudioContext && s.outputNode) = true
    · obtain ⟨ho, hn⟩ : s.outputAudioContext = true ∧ s.outputNode = true := by
        simpa using hg
      by_cases hi : messageInterrupted m = true
      · right
        exact ⟨hi, by rw [step_msg_interrupt s t m d ha ho hn hi]⟩
      · have hi2 : messageInterrupted m = false := by simpa using hi
        rcases hdec : decodeBase64Audio d with - | ⟨samples, dur⟩
        · left; rw [step_msg_decode_fail s t m d ha hi2 hdec]
        · left
          rw [step_msg_schedule s t m d samples dur ha ho hn hi2 hdec]
          have hd := decodeBase64Audio_dur_nonneg d samples dur hdec
          show s.nextStartTime ≤ max t s.nextStartTime + dur
          have hm := le_max_right t s.nextStartTime
          linarith
    · left; rw [step_msg_guard_off s t m d ha hg]

/-- C10: a message with the interruption flag set but no audio payload at
the nested path leaves the entire client state unchanged — the
interruption reset happens only when audio data is also present. -/
theorem claim_C10 (s : LiveClientState) (t : ℚ) (m : LiveServerMessage)
    (hi : messageInterrupted m = true) (ha : audioDataOf m = none) :
    step s (.channelMessage t m) = s :=
  step_msg_no_audio s t m ha

/-- Witness for C10 on an audio-free interruption signal. -/
theorem claim_C10_witness :
    messageInterrupted msgInterruptOnly = true ∧
      audioDataOf msgInterruptOnly = none ∧
      step connectedState (.channelMessage 9 msgInterruptOnly) = connectedState :=
  ⟨rfl, rfl, claim_C10 connectedState 9 msgInterruptOnly rfl rfl⟩

/-- C7: when device acquisition fails during `connect`, the status
callback sequence is Disconnected → Connecting → Error, all resources are
released, and the emitted message distinguishes permission denial from
hardware absence from generic failure. -/
theorem claim_C7 :
    ((run initState [.connectCall .notAllowed]).statusLog =
        ["DISCONNECTED", "CONNECTING", "ERROR"] ∧
      (run initState [.connectCall .notAllowed]).errorLog =
        ["Camera/Microphone access denied. Please allow permissions."] ∧
      resourcesReleased (run initState [.connectCall .notAllowed])) ∧
    ((run initState [.connectCall .notFound]).statusLog =
        ["DISCONNECTED", "CONNECTING", "ERROR"] ∧
      (run initState [.connectCall .notFound]).errorLog =
        ["No camera or microphone found."] ∧
      resourcesReleased (run initState [.connectCall .notFound])) ∧
    ((run initState [.connectCall .otherFailure]).statusLog =
        ["DISCONNECTED", "CONNECTING", "ERROR"] ∧
      (run initState [.connectCall .otherFailure]).errorLog = ["Failed to connect."] ∧
      resourcesReleased (run initState [.connectCall .otherFailure])) ∧
    (connectErrorMessage .notAllowed ≠ connectErrorMessage .notFound ∧
      connectErrorMessage .notAllowed ≠ connectErrorMessage .otherFailure ∧
      connectErrorMessage .notFound ≠ connectErrorMessage .otherFailure) :=
  ⟨⟨rfl, rfl, rfl, rfl, rfl, rfl⟩, ⟨rfl, rfl, rfl, rfl, rfl, rfl⟩,
    ⟨rfl, rfl, rfl, rfl, rfl, rfl⟩, by decide, by decide, by decide⟩

/-- C3 fails on the code: in the interleaving where `disconnect()` runs
while Connecting and the channel's `onopen` callback fires afterwards,
all device resources are indeed released and stay released (the
`startAudioInput` guard blocks re-acquisition), but the unguarded `onopen`
callback still emits status CONNECTED, so the final reported status is
CONNECTED rather than DISCONNECTED. -/
theorem claim_C3_trace :
    (run initState [.connectCall .granted, .disconnectCall, .channelOpen]).statusLog =
        ["DISCONNECTED", "CONNECTING", "DISCONNECTED", "CONNECTED"] ∧
      resourcesReleased (run initState [.connectCall .granted, .disconnectCall, .channelOpen]) ∧
      (run initState [.connectCall .granted, .disconnectCall, .channelOpen]).processor = false ∧
      (run initState
          [.connectCall .granted, .disconnectCall, .channelOpen]).statusLog.getLast? =
        some "CONNECTED" :=
  ⟨rfl, ⟨rfl, rfl, rfl, rfl⟩, rfl, rfl⟩

/-- C4 (amended): each sample is clamped to `[-1, 1]`, scaled by 32768
when negative and 32767 otherwise, and stored by truncation toward zero
(not rounding to nearest); every output lies in `[-32768, 32767]` with no
modular wraparound. -/
theorem claim_C4 (x : ℚ) :
    floatTo16BitPCMSample x =
        jsTrunc (if clampSample x < 0 then clampSample x * 32768 else clampSample x * 32767) ∧
      -32768 ≤ floatTo16BitPCMSample x ∧ floatTo16BitPCMSample x ≤ 32767 :=
  floatTo16BitPCMSample_spec x

/-- C4 counterexample: at sample −7/10 the code produces −22937, although
−22938 is strictly nearer to the scaled value −7/10·32768 = −22937.6, so
the conversion is not to the nearest 16-bit integer. -/
theorem claim_C4_counterexample :
    floatTo16BitPCMSample (-7 / 10) = -22937 ∧
      |(-22938 : ℚ) - -7 / 10 * 32768| < |(-22937 : ℚ) - -7 / 10 * 32768| := by
  constructor
  · have hc : clampSample (-7 / 10) = -7 / 10 := by
      rw [clampSample]; norm_num
    rw [floatTo16BitPCMSample, hc]
    norm_num [jsTrunc, toInt16]
    rw [show (⌈(-(114688 / 5) : ℚ)⌉ : ℤ) = -22937 by
      rw [Int.ceil_eq_iff]
      norm_num]
    decide
  · rw [abs_of_nonpos (by norm_num), abs_of_nonneg (by norm_num)]
    norm_num

/-- C5 (amended): for every sample in `[-1, 1]`, encoding to PCM16 and
decoding back lands strictly within two quantization steps (2/32768) of
the original; one step does not suffice because the encoder scales
non-negative samples by 32767 while the decoder divides by 32768. -/
theorem claim_C5 (x : ℚ) (h1 : -1 ≤ x) (h2 : x ≤ 1) :
    |roundTrip x - x| < 2 / 32768 :=
  roundTrip_close x h1 h2

/-- Witness for C5 at the sample 1/2. -/
theorem claim_C5_witness :
    (-1 ≤ (1 / 2 : ℚ)) ∧ ((1 / 2 : ℚ) ≤ 1) ∧ |roundTrip (1 / 2) - 1 / 2| < 2 / 32768 :=
  ⟨by norm_num, by norm_num, claim_C5 (1 / 2) (by norm_num) (by norm_num)⟩

/-- C5 counterexample: at the float32-representable sample
16777215/16777216 the round-trip error is 1023/2^24 ≈ 2 steps, exceeding
one quantization step 1/32768 = 512/2^24. -/
theorem claim_C5_counterexample :
    ¬ (|roundTrip (16777215 / 16777216) - 16777215 / 16777216| ≤ 1 / 32768) := by
  have h : roundTrip (16777215 / 16777216) = 16383 / 16384 := by
    have hc : clampSample (16777215 / 16777216) = 16777215 / 16777216 := by
      rw [clampSample]; norm_num
    rw [roundTrip, floatTo16BitPCMSample, hc]
    norm_num [jsTrunc, toInt16, pcm16ToFloatSample]
  rw [h, abs_of_neg (by norm_num : (16383 / 16384 : ℚ) - 16777215 / 16777216 < 0)]
  norm_num

/-- C6: the transport encoding round-trips exactly: decoding the encoding
of any byte sequence returns exactly that sequence. -/
theorem claim_C6 (b : List Nat) (h : ∀ x ∈ b, x < 256) :
    base64ToArrayBuffer (arrayBufferToBase64 b) = some b :=
  base64_roundtrip b h

/-- Witness for C6 at byte sequences of length 0, 1 and 3, including the
byte values 0x00 and 0xFF. -/
theorem claim_C6_witness :
    (∀ x ∈ ([] : List Nat), x < 256) ∧
      (∀ x ∈ [255], x < 256) ∧
      (∀ x ∈ [0, 255, 7], x < 256) ∧
      base64ToArrayBuffer (arrayBufferToBase64 []) = some [] ∧
      base64ToArrayBuffer (arrayBufferToBase64 [255]) = some [255] ∧
      base64ToArrayBuffer (arrayBufferToBase64 [0, 255, 7]) = some [0, 255, 7] :=
  ⟨by decide, by decide, by decide, claim_C6 [] (by decide), claim_C6 [255] (by decide),
    claim_C6 [0, 255, 7] (by decide)⟩

end MamaAI
